import Mathlib

/-!
Verification development for the Cache-Quest repository (`src/core/`).

The Python sources are shallowly embedded: pure helpers from
`core/utils.py` become Lean functions over `ℚ`/`ℝ`, the admin-guard
views from `core/views.py` become explicit state-passing functions over
a list of user records, the claim-code validation from
`core/serializers.py` becomes a function on strings, and the bounded
code generator from `core/models.py` is parameterized by its random
draws and its existence-check collaborator.

Machine strings are modeled as Lean `String`/`List Char`; the Python
string predicates (`str.strip`, `str.upper`, `str.isalnum`) are
reproduced exactly on the Latin-1 code-point range (U+0000..U+00FF),
which contains every input exercised here; above that range the model
uses the identity/false defaults, documented at each definition.
-/

namespace CacheQuest

/- ============================================================
   Coordinate validator, from `core/utils.py::validate_coordinates`.
   A `none` input models a value for which Python's `float()` raises
   `TypeError`/`ValueError`; the numeric comparisons are exact.
   ============================================================ -/

/-- Outcome of `validate_coordinates`: the source returns
`(False, "Coordinates must be numeric values.")`,
`(False, f"Latitude must be between -90 and 90. Got: {lat}")`,
`(False, f"Longitude must be between -180 and 180. Got: {lng}")`,
or `(True, None)`; the four distinct shapes are the four constructors. -/
inductive CoordResult
  | numError
  | latError
  | lngError
  | valid
deriving DecidableEq, Repr

/-- From `core/utils.py` lines 55-78: parse both values (the `try` block),
then check latitude, then longitude, boundaries inclusive. -/
def validate_coordinates (latitude longitude : Option ℚ) : CoordResult :=
  match latitude, longitude with
  | some lat, some lng =>
    if lat < -90 ∨ lat > 90 then .latError
    else if lng < -180 ∨ lng > 180 then .lngError
    else .valid
  | _, _ => .numError

/-- C7: `validate(lat, lng)` fails when either value is not numeric; fails
with a latitude-specific message whenever `lat < -90 ∨ lat > 90`; fails with
a longitude-specific message whenever `lat` is in range and `lng < -180 ∨
lng > 180`; and succeeds for every numeric pair with `lat ∈ [-90, 90]` and
`lng ∈ [-180, 180]`, the boundary values included. -/
theorem validate_coordinates_spec :
    (∀ lng, validate_coordinates none lng = .numError)
    ∧ (∀ lat, validate_coordinates lat none = .numError)
    ∧ (∀ lat lng : ℚ, (lat < -90 ∨ lat > 90) →
        validate_coordinates (some lat) (some lng) = .latError)
    ∧ (∀ lat lng : ℚ, -90 ≤ lat → lat ≤ 90 → (lng < -180 ∨ lng > 180) →
        validate_coordinates (some lat) (some lng) = .lngError)
    ∧ (∀ lat lng : ℚ, -90 ≤ lat → lat ≤ 90 → -180 ≤ lng → lng ≤ 180 →
        validate_coordinates (some lat) (some lng) = .valid) := by
  refine ⟨fun lng => rfl, fun lat => by cases lat <;> rfl, ?_, ?_, ?_⟩
  · intro lat lng h
    simp only [validate_coordinates, if_pos h]
  · intro lat lng h1 h2 h
    have hlat : ¬(lat < -90 ∨ lat > 90) := by
      push_neg
      exact ⟨by linarith, by linarith⟩
    simp only [validate_coordinates, if_neg hlat, if_pos h]
  · intro lat lng h1 h2 h3 h4
    have hlat : ¬(lat < -90 ∨ lat > 90) := by
      push_neg
      exact ⟨by linarith, by linarith⟩
    have hlng : ¬(lng < -180 ∨ lng > 180) := by
      push_neg
      exact ⟨by linarith, by linarith⟩
    simp only [validate_coordinates, if_neg hlat, if_neg hlng]

/-- Witness for C7 at the spec's own probe points: `validate(91,0)` and
`validate(-91,0)` cite latitude, `validate(0,181)` and `validate(0,-181)`
cite longitude, `validate(90,180)` and `validate(-90,-180)` succeed, and a
non-numeric latitude yields the numeric error. -/
theorem validate_coordinates_spec_witness :
    validate_coordinates (some 91) (some 0) = .latError
    ∧ validate_coordinates (some (-91)) (some 0) = .latError
    ∧ validate_coordinates (some 0) (some 181) = .lngError
    ∧ validate_coordinates (some 0) (some (-181)) = .lngError
    ∧ validate_coordinates (some 90) (some 180) = .valid
    ∧ validate_coordinates (some (-90)) (some (-180)) = .valid
    ∧ validate_coordinates none (some 0) = .numError :=
  ⟨validate_coordinates_spec.2.2.1 91 0 (by norm_num),
   validate_coordinates_spec.2.2.1 (-91) 0 (by norm_num),
   validate_coordinates_spec.2.2.2.1 0 181 (by norm_num) (by norm_num) (by norm_num),
   validate_coordinates_spec.2.2.2.1 0 (-181) (by norm_num) (by norm_num) (by norm_num),
   validate_coordinates_spec.2.2.2.2 90 180 (by norm_num) (by norm_num) (by norm_num) (by norm_num),
   validate_coordinates_spec.2.2.2.2 (-90) (-180) (by norm_num) (by norm_num) (by norm_num)
     (by norm_num),
   validate_coordinates_spec.1 (some 0)⟩

/- ============================================================
   Admin invariant guard, from `core/permissions.py::check_last_admin`
   and `core/views.py::UserViewSet.partial_update` / `destroy`.
   A user record keeps exactly the fields the guards consult
   (`id`, `role`, `is_active`); `display_name`, `email` and `password`
   never influence the guards or the active-admin count and are omitted.
   `UserUpdateSerializer.validate_role` admits only the two
   `ROLE_CHOICES`, so `Role` has two constructors.
   ============================================================ -/

/-- The two values of `User.ROLE_CHOICES` in `core/models.py`. -/
inductive Role
  | admin
  | participant
deriving DecidableEq, Repr

structure UserR where
  id : Nat
  role : Role
  isActive : Bool
deriving DecidableEq, Repr

/-- The filter `role='admin', is_active=True` used both by
`check_last_admin` and by the guard condition `user.role == 'admin' and
user.is_active` in the views. -/
def isActiveAdmin (u : UserR) : Bool :=
  u.role == .admin && u.isActive

/-- Count of actors with `role=admin AND isActive=true`. -/
def countActiveAdmins (us : List UserR) : Nat :=
  (us.filter isActiveAdmin).length

/-- From `core/permissions.py` lines 5-22: the active-admin queryset with
the target excluded by id is empty. -/
def check_last_admin (us : List UserR) (excluding : UserR) : Bool :=
  ((us.filter isActiveAdmin).filter (fun u => u.id != excluding.id)).length == 0

/-- A PATCH body for `UserUpdateSerializer`: `none` models an absent key
(Python's `'field' in request.data` is false). Values are the parsed JSON
payloads. The serializer's other fields (`display_name`, `email`,
`password`) are omitted: they touch neither guard nor admin count. -/
structure UpdateReq where
  role : Option Role
  isActive : Option Bool
deriving DecidableEq, Repr

/-- Translates `'is_active' in request.data and not request.data['is_active']`. -/
def reqDeactivates (req : UpdateReq) : Bool :=
  req.isActive == some false

/-- Translates `'role' in request.data and request.data['role'] != 'admin'`. -/
def reqDemotes (req : UpdateReq) : Bool :=
  match req.role with
  | some r => r != .admin
  | none => false

/-- From `UserUpdateSerializer.update`: set each provided field on the
instance. -/
def applyUpdate (req : UpdateReq) (u : UserR) : UserR :=
  { u with
    role := req.role.getD u.role
    isActive := req.isActive.getD u.isActive }

/-- The four distinct 400-responses of the admin user endpoints, plus the
404 of `get_object` when no user has the requested id. -/
inductive AdminErr
  | notFound
  | selfDeactivate
  | selfDemote
  | selfDelete
  | lastAdmin
deriving DecidableEq, Repr

/-- From `core/views.py` lines 202-257 (`UserViewSet.partial_update`):
self-deactivation and self-demotion are rejected first; then, for a target
that is a currently active admin, a deactivation or demotion is rejected
when `check_last_admin` holds; otherwise the serializer saves the update. -/
def patch_user (us : List UserR) (actorId targetId : Nat) (req : UpdateReq) :
    Except AdminErr (List UserR) :=
  match us.find? (fun u => u.id == targetId) with
  | none => .error .notFound
  | some user =>
    if user.id == actorId && reqDeactivates req then .error .selfDeactivate
    else if user.id == actorId && reqDemotes req then .error .selfDemote
    else if isActiveAdmin user && reqDeactivates req && check_last_admin us user then
      .error .lastAdmin
    else if isActiveAdmin user && reqDemotes req && check_last_admin us user then
      .error .lastAdmin
    else .ok (us.map (fun u => if u.id == targetId then applyUpdate req u else u))

/-- From `core/views.py` lines 259-292 (`UserViewSet.destroy`): self-delete
is rejected first; then deleting a currently active admin is rejected when
`check_last_admin` holds; otherwise the user row is deleted. -/
def destroy_user (us : List UserR) (actorId targetId : Nat) :
    Except AdminErr (List UserR) :=
  match us.find? (fun u => u.id == targetId) with
  | none => .error .notFound
  | some user =>
    if user.id == actorId then .error .selfDelete
    else if isActiveAdmin user && check_last_admin us user then .error .lastAdmin
    else .ok (us.filter (fun u => u.id != targetId))

lemma one_le_countActiveAdmins_iff (us : List UserR) :
    1 ≤ countActiveAdmins us ↔ ∃ u ∈ us, isActiveAdmin u = true := by
  rw [countActiveAdmins, ← List.countP_eq_length_filter, Nat.one_le_iff_ne_zero,
    ← Nat.pos_iff_ne_zero]
  exact List.countP_pos_iff

lemma check_last_admin_false_iff (us : List UserR) (t : UserR) :
    check_last_admin us t = false ↔ ∃ u ∈ us, isActiveAdmin u = true ∧ u.id ≠ t.id := by
  rw [check_last_admin]
  rw [show ((((us.filter isActiveAdmin).filter (fun u => u.id != t.id)).length == 0) = false)
      ↔ ((us.filter isActiveAdmin).filter (fun u => u.id != t.id)).length ≠ 0 from by simp]
  rw [← Nat.pos_iff_ne_zero, ← List.countP_eq_length_filter, List.countP_pos_iff]
  constructor
  · rintro ⟨u, hu, hpred⟩
    rw [List.mem_filter] at hu
    exact ⟨u, hu.1, hu.2, by simpa using hpred⟩
  · rintro ⟨u, hmem, hadm, hid⟩
    exact ⟨u, List.mem_filter.mpr ⟨hmem, hadm⟩, by simpa using hid⟩

lemma mem_map_update (us : List UserR) (targetId : Nat) (req : UpdateReq)
    (b : UserR) (hb : b ∈ us) (hbid : b.id ≠ targetId) :
    b ∈ us.map (fun u => if u.id == targetId then applyUpdate req u else u) := by
  have : (fun u => if u.id == targetId then applyUpdate req u else u) b = b := by
    simp [hbid]
  exact this ▸ List.mem_map_of_mem _ hb

/-- C1: starting from any state with at least one active admin, every
accepted PATCH and every accepted DELETE leaves at least one active admin,
and any PATCH that deactivates or demotes a currently active admin, and
any DELETE of such an admin, is rejected (no state change) whenever the
active-admin count excluding the target is zero. -/
theorem admin_invariant (us : List UserR) (actorId targetId : Nat) (req : UpdateReq)
    (hnodup : (us.map UserR.id).Nodup) (hinv : 1 ≤ countActiveAdmins us) :
    (∀ us2, patch_user us actorId targetId req = .ok us2 → 1 ≤ countActiveAdmins us2)
    ∧ (∀ us2, destroy_user us actorId targetId = .ok us2 → 1 ≤ countActiveAdmins us2)
    ∧ (∀ user, us.find? (fun u => u.id == targetId) = some user →
        isActiveAdmin user = true → check_last_admin us user = true →
        ((reqDeactivates req = true ∨ reqDemotes req = true) →
          ∃ e, patch_user us actorId targetId req = .error e)
        ∧ ∃ e, destroy_user us actorId targetId = .error e) := by
  refine ⟨?_, ?_, ?_⟩
  · -- accepted PATCH preserves the invariant
    intro us2 h
    rw [patch_user] at h
    cases hfind : us.find? (fun u => u.id == targetId) with
    | none => rw [hfind] at h; exact absurd h (by simp)
    | some user =>
      rw [hfind] at h
      simp only at h
      have huid : user.id = targetId := by simpa using List.find?_some hfind
      have humem : user ∈ us := List.mem_of_find?_eq_some hfind
      by_cases h1 : (user.id == actorId && reqDeactivates req) = true
      · rw [if_pos h1] at h; exact absurd h (by simp)
      rw [if_neg h1] at h
      by_cases h2 : (user.id == actorId && reqDemotes req) = true
      · rw [if_pos h2] at h; exact absurd h (by simp)
      rw [if_neg h2] at h
      by_cases h3 : (isActiveAdmin user && reqDeactivates req && check_last_admin us user) = true
      · rw [if_pos h3] at h; exact absurd h (by simp)
      rw [if_neg h3] at h
      by_cases h4 : (isActiveAdmin user && reqDemotes req && check_last_admin us user) = true
      · rw [if_pos h4] at h; exact absurd h (by simp)
      rw [if_neg h4] at h
      have hus2 : us2 = us.map (fun u => if u.id == targetId then applyUpdate req u else u) := by
        cases h; rfl
      subst hus2
      rw [one_le_countActiveAdmins_iff] at hinv ⊢
      rcases hinv with ⟨a, hamem, haadm⟩
      by_cases haid : a.id = targetId
      · -- every active admin shares the target's id; by Nodup the target
        -- record itself is that admin, and the passed guards force the
        -- request to keep it an active admin
        have hau : a = user :=
          List.inj_on_of_nodup_map hnodup hamem humem (by rw [haid, huid])
        subst hau
        by_cases hcla : check_last_admin us a = true
        · -- the last-admin guards passed, so the request neither
          -- deactivates nor demotes
          have hde : reqDeactivates req = false := by
            rcases Bool.eq_false_or_eq_true (reqDeactivates req) with hd | hd
            · exact absurd
                (show (isActiveAdmin a && reqDeactivates req && check_last_admin us a) = true
                  from by simp [haadm, hd, hcla]) h3
            · exact hd
          have hdm : reqDemotes req = false := by
            rcases Bool.eq_false_or_eq_true (reqDemotes req) with hd | hd
            · exact absurd
                (show (isActiveAdmin a && reqDemotes req && check_last_admin us a) = true
                  from by simp [haadm, hd, hcla]) h4
            · exact hd
          refine ⟨applyUpdate req a, ?_, ?_⟩
          · have : (fun u => if u.id == targetId then applyUpdate req u else u) a
                = applyUpdate req a := by simp [huid]
            exact this ▸ List.mem_map_of_mem _ hamem
          · -- the updated record is still an active admin
            simp only [isActiveAdmin, Bool.and_eq_true, beq_iff_eq] at haadm
            simp only [isActiveAdmin, applyUpdate, Bool.and_eq_true, beq_iff_eq]
            constructor
            · cases hr : req.role with
              | none => simpa [hr] using haadm.1
              | some r =>
                have hrr : r = Role.admin := by
                  by_contra hne
                  rw [show reqDemotes req = true from by simp [reqDemotes, hr, hne]] at hdm
                  exact Bool.noConfusion hdm
                simp [hr, hrr]
            · cases hi : req.isActive with
              | none => simpa [hi] using haadm.2
              | some b =>
                cases b with
                | true => simp [hi]
                | false =>
                  rw [show reqDeactivates req = true from by simp [reqDeactivates, hi]] at hde
                  exact Bool.noConfusion hde
        · -- another active admin exists away from the target id
          rcases (check_last_admin_false_iff us a).mp (by simpa using hcla) with
            ⟨b, hbmem, hbadm, hbid⟩
          exact ⟨b, mem_map_update us targetId req b hbmem (huid ▸ hbid), hbadm⟩
      · exact ⟨a, mem_map_update us targetId req a hamem haid, haadm⟩
  · -- accepted DELETE preserves the invariant
    intro us2 h
    rw [destroy_user] at h
    cases hfind : us.find? (fun u => u.id == targetId) with
    | none => rw [hfind] at h; exact absurd h (by simp)
    | some user =>
      rw [hfind] at h
      simp only at h
      have huid : user.id = targetId := by simpa using List.find?_some hfind
      have humem : user ∈ us := List.mem_of_find?_eq_some hfind
      by_cases h1 : (user.id == actorId) = true
      · rw [if_pos h1] at h; exact absurd h (by simp)
      rw [if_neg h1] at h
      by_cases h2 : (isActiveAdmin user && check_last_admin us user) = true
      · rw [if_pos h2] at h; exact absurd h (by simp)
      rw [if_neg h2] at h
      have hus2 : us2 = us.filter (fun u => u.id != targetId) := by cases h; rfl
      subst hus2
      rw [one_le_countActiveAdmins_iff] at hinv ⊢
      rcases hinv with ⟨a, hamem, haadm⟩
      by_cases haid : a.id = targetId
      · have hau : a = user :=
          List.inj_on_of_nodup_map hnodup hamem humem (by rw [haid, huid])
        subst hau
        have hcla : check_last_admin us a = false := by
          rcases Bool.eq_false_or_eq_true (check_last_admin us a) with hc | hc
          · exact absurd
              (show (isActiveAdmin a && check_last_admin us a) = true
                from by simp [haadm, hc]) h2
          · exact hc
        rcases (check_last_admin_false_iff us a).mp hcla with ⟨b, hbmem, hbadm, hbid⟩
        refine ⟨b, ?_, hbadm⟩
        simp only [List.mem_filter, bne_iff_ne]
        exact ⟨hbmem, huid ▸ hbid⟩
      · refine ⟨a, ?_, haadm⟩
        simp only [List.mem_filter, bne_iff_ne]
        exact ⟨hamem, haid⟩
  · -- the orphaning mutations are rejected
    intro user hfind hadm hcla
    constructor
    · intro hreq
      rw [patch_user, hfind]
      simp only
      by_cases h1 : (user.id == actorId && reqDeactivates req) = true
      · exact ⟨.selfDeactivate, by rw [if_pos h1]⟩
      rw [if_neg h1]
      by_cases h2 : (user.id == actorId && reqDemotes req) = true
      · exact ⟨.selfDemote, by rw [if_pos h2]⟩
      rw [if_neg h2]
      rcases hreq with hd | hd
      · exact ⟨.lastAdmin, by rw [if_pos (by simp [hadm, hd, hcla])]⟩
      · by_cases h3 : (isActiveAdmin user && reqDeactivates req
            && check_last_admin us user) = true
        · exact ⟨.lastAdmin, by rw [if_pos h3]⟩
        · exact ⟨.lastAdmin, by
            rw [if_neg h3, if_pos (by simp [hadm, hd, hcla])]⟩
    · rw [destroy_user, hfind]
      simp only
      by_cases h1 : (user.id == actorId) = true
      · exact ⟨.selfDelete, by rw [if_pos h1]⟩
      · exact ⟨.lastAdmin, by rw [if_neg h1, if_pos (by simp [hadm, hcla])]⟩

/-- Witness for C1: in the two-user state with admin 1 and participant 2,
an accepted PATCH promoting user 2 keeps at least one active admin, and a
deactivation of the last active admin 1 by admin 2 is rejected (the state
used for the rejection half has 1 as its only active admin). -/
theorem admin_invariant_witness :
    1 ≤ countActiveAdmins
      [⟨1, Role.admin, true⟩, ⟨2, Role.participant, true⟩]
    ∧ 1 ≤ countActiveAdmins
      [⟨1, Role.admin, true⟩, ⟨2, Role.admin, true⟩]
    ∧ (∃ e, patch_user
        [⟨1, Role.admin, true⟩, ⟨2, Role.admin, false⟩] 2 1
        ⟨none, some false⟩ = .error e) :=
  ⟨by decide,
   (admin_invariant [⟨1, Role.admin, true⟩, ⟨2, Role.participant, true⟩] 1 2
      ⟨some Role.admin, none⟩ (by decide) (by decide)).1
     [⟨1, Role.admin, true⟩, ⟨2, Role.admin, true⟩] rfl,
   ((admin_invariant [⟨1, Role.admin, true⟩, ⟨2, Role.admin, false⟩] 2 1
      ⟨none, some false⟩ (by decide) (by decide)).2.2
     ⟨1, Role.admin, true⟩ (by decide) (by decide) (by decide)).1
     (Or.inl (by decide))⟩

/-- C8: when an acting admin targets their own account the self-action
check runs first and short-circuits: self-deletion always yields the
`selfDelete` error and never the orphan-admin one, even when the actor is
also the last active admin; self-deactivation and self-demotion are
rejected regardless of how many other active admins exist; and a
`lastAdmin` rejection can only arise for a target other than the actor. -/
theorem self_guard_precedence :
    (∀ (us : List UserR) (actorId : Nat),
        (us.find? (fun u => u.id == actorId)).isSome →
        destroy_user us actorId actorId = .error .selfDelete)
    ∧ (∀ (us : List UserR) (actorId : Nat) (req : UpdateReq),
        (us.find? (fun u => u.id == actorId)).isSome →
        reqDeactivates req = true →
        patch_user us actorId actorId req = .error .selfDeactivate)
    ∧ (∀ (us : List UserR) (actorId : Nat) (req : UpdateReq),
        (us.find? (fun u => u.id == actorId)).isSome →
        reqDemotes req = true →
        (patch_user us actorId actorId req = .error .selfDeactivate
          ∨ patch_user us actorId actorId req = .error .selfDemote))
    ∧ (∀ (us : List UserR) (actorId targetId : Nat) (req : UpdateReq),
        patch_user us actorId targetId req = .error .lastAdmin → targetId ≠ actorId)
    ∧ (∀ (us : List UserR) (actorId targetId : Nat),
        destroy_user us actorId targetId = .error .lastAdmin → targetId ≠ actorId) := by
  refine ⟨?_, ?_, ?_, ?_, ?_⟩
  · intro us actorId hsome
    rw [destroy_user]
    cases hfind : us.find? (fun u => u.id == actorId) with
    | none => rw [hfind] at hsome; exact absurd hsome (by simp)
    | some user =>
      simp only
      have huid : user.id = actorId := by simpa using List.find?_some hfind
      rw [if_pos (by simp [huid])]
  · intro us actorId req hsome hde
    rw [patch_user]
    cases hfind : us.find? (fun u => u.id == actorId) with
    | none => rw [hfind] at hsome; exact absurd hsome (by simp)
    | some user =>
      simp only
      have huid : user.id = actorId := by simpa using List.find?_some hfind
      rw [if_pos (by simp [huid, hde])]
  · intro us actorId req hsome hdm
    rw [patch_user]
    cases hfind : us.find? (fun u => u.id == actorId) with
    | none => rw [hfind] at hsome; exact absurd hsome (by simp)
    | some user =>
      simp only
      have huid : user.id = actorId := by simpa using List.find?_some hfind
      by_cases h1 : (user.id == actorId && reqDeactivates req) = true
      · exact Or.inl (by rw [if_pos h1])
      · exact Or.inr (by rw [if_neg h1, if_pos (by simp [huid, hdm])])
  · intro us actorId targetId req h heq
    rw [patch_user] at h
    cases hfind : us.find? (fun u => u.id == targetId) with
    | none => rw [hfind] at h; exact absurd h (by simp)
    | some user =>
      rw [hfind] at h
      simp only at h
      have huid : user.id = targetId := by simpa using List.find?_some hfind
      by_cases h1 : (user.id == actorId && reqDeactivates req) = true
      · rw [if_pos h1] at h; exact absurd h (by simp)
      rw [if_neg h1] at h
      by_cases h2 : (user.id == actorId && reqDemotes req) = true
      · rw [if_pos h2] at h; exact absurd h (by simp)
      rw [if_neg h2] at h
      -- reaching a lastAdmin error needs a deactivation or demotion,
      -- but with target = actor the passed self-guards exclude both
      by_cases h3 : (isActiveAdmin user && reqDeactivates req
          && check_last_admin us user) = true
      · have hde : reqDeactivates req = true := by
          simp only [Bool.and_eq_true] at h3
          exact h3.1.2
        exact h1 (by simp [huid, heq, hde])
      rw [if_neg h3] at h
      by_cases h4 : (isActiveAdmin user && reqDemotes req && check_last_admin us user) = true
      · have hdm : reqDemotes req = true := by
          simp only [Bool.and_eq_true] at h4
          exact h4.1.2
        exact h2 (by simp [huid, heq, hdm])
      · rw [if_neg h4] at h; exact absurd h (by simp)
  · intro us actorId targetId h heq
    rw [destroy_user] at h
    cases hfind : us.find? (fun u => u.id == targetId) with
    | none => rw [hfind] at h; exact absurd h (by simp)
    | some user =>
      rw [hfind] at h
      simp only at h
      have huid : user.id = targetId := by simpa using List.find?_some hfind
      rw [if_pos (by simp [huid, heq])] at h
      exact absurd h (by simp)

/-- Witness for C8: admin 1 is the only active admin; self-deletion yields
the `selfDelete` error (not `lastAdmin`), self-deactivation yields
`selfDeactivate`, and with a second active admin present self-demotion is
still rejected with a self error. -/
theorem self_guard_precedence_witness :
    destroy_user [⟨1, Role.admin, true⟩] 1 1 = .error .selfDelete
    ∧ patch_user [⟨1, Role.admin, true⟩] 1 1 ⟨none, some false⟩ = .error .selfDeactivate
    ∧ (patch_user [⟨1, Role.admin, true⟩, ⟨2, Role.admin, true⟩] 1 1
        ⟨some Role.participant, none⟩ = .error .selfDeactivate
      ∨ patch_user [⟨1, Role.admin, true⟩, ⟨2, Role.admin, true⟩] 1 1
        ⟨some Role.participant, none⟩ = .error .selfDemote) :=
  ⟨self_guard_precedence.1 [⟨1, Role.admin, true⟩] 1 (by decide),
   self_guard_precedence.2.1 [⟨1, Role.admin, true⟩] 1 ⟨none, some false⟩
     (by decide) (by decide),
   self_guard_precedence.2.2.1 [⟨1, Role.admin, true⟩, ⟨2, Role.admin, true⟩] 1
     ⟨some Role.participant, none⟩ (by decide) (by decide)⟩

/- ============================================================
   Python string primitives, reproduced on the Latin-1 range
   (code points U+0000..U+00FF). Every claim input lies in this
   range; above it `pyUpperChar` is the identity and
   `pyIsAlnumChar` is false (model domain boundary).
   ============================================================ -/

/-- Characters removed by Python `str.strip()` (exactly the code points
`≤ U+00FF` for which `str.isspace()` holds: TAB..CR, FS..US, SPACE,
NEL U+0085, NBSP U+00A0). -/
def pyIsSpaceB (c : Char) : Bool :=
  (0x09 ≤ c.val && c.val ≤ 0x0D) || (0x1C ≤ c.val && c.val ≤ 0x1F)
  || c.val == 0x20 || c.val == 0x85 || c.val == 0xA0

/-- Python `str.upper()` on a single character, exact on code points
`≤ U+00FF`: ASCII `a`..`z` and Latin-1 `à`..`þ` (except `÷`) shift down by
0x20, `ß` expands to `SS`, `µ` maps to U+039C, `ÿ` to U+0178; everything
else (including all code points above U+00FF) is left unchanged. -/
def pyUpperChar (c : Char) : List Char :=
  if 'a' ≤ c && c ≤ 'z' then [Char.ofNat (c.toNat - 0x20)]
  else if c = 'ß' then ['S', 'S']
  else if c = 'µ' then ['Μ']
  else if c = 'ÿ' then ['Ÿ']
  else if 'à' ≤ c && c ≤ 'þ' && c != '÷' then [Char.ofNat (c.toNat - 0x20)]
  else [c]

/-- Python's per-character `str.isalnum()` (alphabetic, decimal, digit or
numeric), exact on code points `≤ U+00FF`: ASCII alphanumerics; `ª µ º`;
the superscripts `² ³ ¹`; the fractions `¼ ½ ¾`; and the Latin-1 letters
`À`..`ÿ` except `×` and `÷`. False above U+00FF (model domain). -/
def pyIsAlnumChar (c : Char) : Bool :=
  ('0' ≤ c && c ≤ '9') || ('A' ≤ c && c ≤ 'Z') || ('a' ≤ c && c ≤ 'z')
  || c.val == 0xAA || c.val == 0xB5 || c.val == 0xBA
  || c.val == 0xB2 || c.val == 0xB3 || c.val == 0xB9
  || (0xBC ≤ c.val && c.val ≤ 0xBE)
  || (0xC0 ≤ c.val && c.val ≤ 0xD6) || (0xD8 ≤ c.val && c.val ≤ 0xF6)
  || (0xF8 ≤ c.val && c.val ≤ 0xFF)

/-- Python `str.strip()`: drop whitespace from both ends. -/
def pyStripL (l : List Char) : List Char :=
  ((l.dropWhile pyIsSpaceB).reverse.dropWhile pyIsSpaceB).reverse

/-- Python `str.upper()` over a whole string. -/
def pyUpperL (l : List Char) : List Char :=
  (l.map pyUpperChar).flatten

/-- Python `str.isalnum()`: nonempty and every character alphanumeric. -/
def pyIsAlnumL (l : List Char) : Bool :=
  !l.isEmpty && l.all pyIsAlnumChar

/- ============================================================
   Claim-code validation, from
   `core/serializers.py::ClaimCacheSerializer.validate_code`
   (lines 467-489).
   ============================================================ -/

/-- The three rejections of `validate_code`, in source order:
`"Please provide a cache code."`, `"Invalid code format."`,
`"Cache codes are 6 characters long."`. -/
inductive ClaimErr
  | missingCode
  | invalidFormat
  | wrongLength
deriving DecidableEq, Repr

/-- From `core/serializers.py` lines 473-489: presence check
(`not value or not value.strip()`), then normalize
(`value.strip().upper()`), then format check (`value.isalnum()`), then
length check (`len(value) != 6`), returning the normalized code. -/
def validate_code (value : String) : Except ClaimErr String :=
  if value.data = [] || pyStripL value.data = [] then .error .missingCode
  else
    let v := pyUpperL (pyStripL value.data)
    if !pyIsAlnumL v then .error .invalidFormat
    else if v.length ≠ 6 then .error .wrongLength
    else .ok (String.mk v)

/-- The spec's claimed character set for the format check: ASCII uppercase
letters and ASCII digits (`[A-Z0-9]`). Stated from the spec's words, to be
compared with the source's `isalnum` check. -/
def asciiUpperDigitB (c : Char) : Bool :=
  ('A' ≤ c && c ≤ 'Z') || ('0' ≤ c && c ≤ '9')

/- ============================================================
   Spots, claims and the claim pipeline.
   `SpotViewSet.clue` is from `core/views.py` lines 417-436.
   `claim_cache_view` is imported by `core/urls.py` but its definition
   is absent from `src/core/views.py`, so the pipeline around
   `validate_code` is modelled from the spec (§4.5) and the
   repository's tests (`core/tests/test_finds.py`).
   ============================================================ -/

structure SpotR where
  id : Nat
  name : String
  uniqueCode : String
  isActive : Bool
deriving DecidableEq, Repr

/-- Result of `GET /api/spots/<id>/clue/`: either the serialized clue data
(keyed here by the spot id) or the single 404 body
`{'error': 'Spot not found.'}`. -/
inductive ClueResult
  | ok (spotId : Nat)
  | notFound
deriving DecidableEq, Repr

/-- From `core/views.py` lines 417-436 (`SpotViewSet.clue`):
`Spot.objects.get(pk=pk, is_active=True)`, with `DoesNotExist` mapped to
the one 404 response — inactive spots take exactly the nonexistent-id
path. -/
def clue_view (spots : List SpotR) (pk : Nat) : ClueResult :=
  match spots.find? (fun s => s.id == pk && s.isActive) with
  | some s => .ok s.id
  | none => .notFound

/-- Outcomes of `POST /api/spots/claim/`, per spec §4.5/§6 and the tests:
the error kinds `RateLimited`, `MissingCode`, `InvalidFormat`,
`WrongLength`, `CodeNotFound`, `AlreadyClaimed` and the success payload. -/
inductive ClaimResp
  | rateLimited
  | missingCode
  | invalidFormat
  | wrongLength
  | codeNotFound
  | alreadyClaimed
  | success (spotId : Nat) (totalFinds : Nat)
deriving DecidableEq, Repr

/-- Modelled from the spec: `claim_cache_view` is referenced by
`core/urls.py` but missing from `src/core/views.py`. Per §4.5 the rate
check precedes all input validation; a missing `code` field is
`MissingCode` (tests `test_claim_missing_code`); presence/format/length
come verbatim from `validate_code` (source, above); the lookup by
normalized code treats a nonexistent code and an inactive spot's code
identically (`CodeNotFound`, §4.5 step 5 and
`test_claim_enumeration_protection`); then the duplicate check and the
commit returning the post-commit find count. A find is the pair
(spotId, actorId). -/
def claim_cache (spots : List SpotR) (finds : List (Nat × Nat)) (actorId : Nat)
    (rateLimited : Bool) (code : Option String) : ClaimResp :=
  if rateLimited then .rateLimited
  else
    match code with
    | none => .missingCode
    | some raw =>
      match validate_code raw with
      | .error .missingCode => .missingCode
      | .error .invalidFormat => .invalidFormat
      | .error .wrongLength => .wrongLength
      | .ok v =>
        match spots.find? (fun s => s.uniqueCode == v && s.isActive) with
        | none => .codeNotFound
        | some s =>
          if finds.contains (s.id, actorId) then .alreadyClaimed
          else .success s.id ((finds.filter (fun f => f.1 == s.id)).length + 1)

/- ============================================================
   Polling feed, from `core/views.py` lines 439-486
   (`spot_updates_view`). Timestamps are modeled as integers.
   ============================================================ -/

structure FindR where
  spotId : Nat
  foundById : Nat
  foundAt : Int
deriving DecidableEq, Repr

/-- The `spot__is_active=True` join condition of the finds queryset. -/
def spotIsActive (spots : List SpotR) (sid : Nat) : Bool :=
  match spots.find? (fun s => s.id == sid) with
  | some s => s.isActive
  | none => false

/-- From `core/views.py` lines 478-486: filter
`found_at__gt=since, spot__is_active=True` and order by `found_at`
ascending. The view applies no size cap of any kind. -/
def spot_updates (spots : List SpotR) (finds : List FindR) (since : Int) : List FindR :=
  (finds.filter (fun f => since < f.foundAt && spotIsActive spots f.spotId)).mergeSort
    (fun a b => a.foundAt ≤ b.foundAt)

lemma pyStripL_nil : pyStripL [] = [] := rfl

lemma validate_code_data_ne_nil {s : String} (h : pyStripL s.data ≠ []) : s.data ≠ [] :=
  fun hd => h (by rw [hd]; exact pyStripL_nil)

/-- C10 counterexample: the normalized code `"ÀBC123"` contains `'À'`,
a character outside `[A-Z0-9]`, yet the pipeline does not return
`InvalidFormat` — Python's Unicode `isalnum` accepts `'À'` and the code
sails through to the lookup. -/
theorem format_check_charset_counterexample :
    validate_code "ÀBC123" = .ok "ÀBC123"
    ∧ (pyUpperL (pyStripL "ÀBC123".data)).all asciiUpperDigitB = false :=
  ⟨rfl, by decide⟩

/-- C10 (amended): the format check is Python's Unicode `isalnum`, not the
ASCII charset `[A-Z0-9]`: (1) whenever the normalized string contains a
character that is not alphanumeric in Python's sense the pipeline returns
`InvalidFormat`; (2) a code passing the pipeline is nonempty and all its
characters are Python-alphanumeric; (3) every `[A-Z0-9]` character is
Python-alphanumeric, so the source check is strictly weaker than the
spec's charset (the converse fails, see the counterexample). -/
theorem validate_code_format_spec :
    (∀ s : String, pyStripL s.data ≠ [] →
      (∃ c ∈ pyUpperL (pyStripL s.data), pyIsAlnumChar c = false) →
      validate_code s = .error .invalidFormat)
    ∧ (∀ (s : String) (v : String), validate_code s = .ok v →
        v.data ≠ [] ∧ ∀ c ∈ v.data, pyIsAlnumChar c = true)
    ∧ (∀ c : Char, asciiUpperDigitB c = true → pyIsAlnumChar c = true) := by
  refine ⟨?_, ?_, ?_⟩
  · intro s hstrip hbad
    have hdata : s.data ≠ [] := validate_code_data_ne_nil hstrip
    have hall : (pyUpperL (pyStripL s.data)).all pyIsAlnumChar = false := by
      rcases hbad with ⟨c, hc, hcf⟩
      rcases Bool.eq_false_or_eq_true ((pyUpperL (pyStripL s.data)).all pyIsAlnumChar) with
        h | h
      · rw [List.all_eq_true] at h
        rw [h c hc] at hcf
        exact Bool.noConfusion hcf
      · exact h
    rw [validate_code, if_neg (by simp [hdata, hstrip])]
    rw [if_pos (by simp [pyIsAlnumL, hall])]
  · intro s v h
    rw [validate_code] at h
    by_cases h0 : (decide (s.data = []) || decide (pyStripL s.data = [])) = true
    · rw [if_pos h0] at h; exact absurd h (by simp)
    rw [if_neg h0] at h
    by_cases h1 : (!pyIsAlnumL (pyUpperL (pyStripL s.data))) = true
    · rw [if_pos h1] at h; exact absurd h (by simp)
    rw [if_neg h1] at h
    by_cases h2 : ((pyUpperL (pyStripL s.data)).length ≠ 6)
    · rw [if_pos h2] at h; exact absurd h (by simp)
    rw [if_neg h2] at h
    have hv : v = String.mk (pyUpperL (pyStripL s.data)) := by
      cases h; rfl
    subst hv
    have halnum : pyIsAlnumL (pyUpperL (pyStripL s.data)) = true := by
      rcases Bool.eq_false_or_eq_true (pyIsAlnumL (pyUpperL (pyStripL s.data))) with hb | hb
      · exact hb
      · rw [hb] at h1; exact absurd rfl h1
    rw [pyIsAlnumL, Bool.and_eq_true] at halnum
    refine ⟨?_, ?_⟩
    · intro hnil
      have : (pyUpperL (pyStripL s.data)).isEmpty = true := by
        have hd : (String.mk (pyUpperL (pyStripL s.data))).data
            = pyUpperL (pyStripL s.data) := rfl
        rw [hd] at hnil
        simp [hnil]
      rw [this] at halnum
      exact Bool.noConfusion halnum.1
    · intro c hc
      exact List.all_eq_true.mp halnum.2 c hc
  · intro c h
    rw [asciiUpperDigitB, Bool.or_eq_true, Bool.and_eq_true, Bool.and_eq_true] at h
    rw [pyIsAlnumChar]
    rcases h with ⟨h1, h2⟩ | ⟨h1, h2⟩ <;> simp [h1, h2]

/-- Witness for C10: `"AB@12"` (format error under both readings) is
rejected as `InvalidFormat` via the theorem, and the charset inclusion is
instantiated at `'A'`. -/
theorem validate_code_format_spec_witness :
    validate_code "AB@12" = .error .invalidFormat ∧ pyIsAlnumChar 'A' = true :=
  ⟨validate_code_format_spec.1 "AB@12" (by decide) (by decide),
   validate_code_format_spec.2.2 'A' (by decide)⟩

/-- C2: the claim input checks run in strict priority order and the
pipeline stops at the first failure, whatever the spot table and claim
ledger hold: a missing, empty or whitespace-only code is `MissingCode`
(even though it is also wrong-length); a code failing the format check is
`InvalidFormat` (even when wrong-length); a code passing the format check
whose normalized length is not 6 is `WrongLength` (no lookup happens); and
the spec's three probes `""`, `"AB@"`, `"ABC12"` land exactly there. -/
theorem claim_priority_order :
    (∀ (spots : List SpotR) (finds : List (Nat × Nat)) (actorId : Nat),
      claim_cache spots finds actorId false none = .missingCode)
    ∧ (∀ (spots : List SpotR) (finds : List (Nat × Nat)) (actorId : Nat) (raw : String),
        pyStripL raw.data = [] →
        claim_cache spots finds actorId false (some raw) = .missingCode)
    ∧ (∀ (spots : List SpotR) (finds : List (Nat × Nat)) (actorId : Nat) (raw : String),
        pyStripL raw.data ≠ [] →
        pyIsAlnumL (pyUpperL (pyStripL raw.data)) = false →
        claim_cache spots finds actorId false (some raw) = .invalidFormat)
    ∧ (∀ (spots : List SpotR) (finds : List (Nat × Nat)) (actorId : Nat) (raw : String),
        pyStripL raw.data ≠ [] →
        pyIsAlnumL (pyUpperL (pyStripL raw.data)) = true →
        (pyUpperL (pyStripL raw.data)).length ≠ 6 →
        claim_cache spots finds actorId false (some raw) = .wrongLength)
    ∧ (∀ (spots : List SpotR) (finds : List (Nat × Nat)) (actorId : Nat),
        claim_cache spots finds actorId false (some "") = .missingCode
        ∧ claim_cache spots finds actorId false (some "AB@") = .invalidFormat
        ∧ claim_cache spots finds actorId false (some "ABC12") = .wrongLength) := by
  refine ⟨fun _ _ _ => rfl, ?_, ?_, ?_, fun _ _ _ => ⟨rfl, rfl, rfl⟩⟩
  · intro spots finds actorId raw hstrip
    have hvc : validate_code raw = .error .missingCode := by
      rw [validate_code, if_pos (by simp [hstrip])]
    simp [claim_cache, hvc]
  · intro spots finds actorId raw hstrip halnum
    have hvc : validate_code raw = .error .invalidFormat := by
      rw [validate_code, if_neg (by simp [validate_code_data_ne_nil hstrip, hstrip])]
      rw [if_pos (by simp [halnum])]
    simp [claim_cache, hvc]
  · intro spots finds actorId raw hstrip halnum hlen
    have hvc : validate_code raw = .error .wrongLength := by
      rw [validate_code, if_neg (by simp [validate_code_data_ne_nil hstrip, hstrip])]
      rw [if_neg (by simp [halnum]), if_pos hlen]
    simp [claim_cache, hvc]

/-- Witness for C2 with a concrete empty spot table: whitespace-only,
bad-character and short codes land on their respective outcomes. -/
theorem claim_priority_order_witness :
    claim_cache [] [] 1 false (some "   ") = .missingCode
    ∧ claim_cache [] [] 1 false (some "AB@") = .invalidFormat
    ∧ claim_cache [] [] 1 false (some "ABC12") = .wrongLength :=
  ⟨claim_priority_order.2.1 [] [] 1 "   " (by decide),
   claim_priority_order.2.2.1 [] [] 1 "AB@" (by decide) (by decide),
   claim_priority_order.2.2.2.1 [] [] 1 "ABC12" (by decide) (by decide) (by decide)⟩

/-- C3: anti-enumeration indistinguishability. For every submitted code
that survives validation, the claim response is the single value
`codeNotFound` both when no spot carries the normalized code and when
every spot carrying it is inactive — one constructor, hence one error
kind and message. Likewise the clue endpoint returns the single
`notFound` response both for an inactive spot's id (ids unique, as the
database primary key is) and for an id no spot has. -/
theorem anti_enumeration :
    (∀ (spots : List SpotR) (finds : List (Nat × Nat)) (actorId : Nat) (raw v : String),
      validate_code raw = .ok v →
      (∀ t ∈ spots, t.uniqueCode = v → t.isActive = false) →
      claim_cache spots finds actorId false (some raw) = .codeNotFound)
    ∧ (∀ (spots : List SpotR) (s : SpotR), (spots.map SpotR.id).Nodup →
        s ∈ spots → s.isActive = false → clue_view spots s.id = .notFound)
    ∧ (∀ (spots : List SpotR) (pk : Nat), (∀ t ∈ spots, t.id ≠ pk) →
        clue_view spots pk = .notFound) := by
  refine ⟨?_, ?_, ?_⟩
  · intro spots finds actorId raw v hvc hdead
    have hfind : spots.find? (fun s => s.uniqueCode == v && s.isActive) = none := by
      rw [List.find?_eq_none]
      intro t ht
      by_cases hc : t.uniqueCode = v
      · simp [hc, hdead t ht hc]
      · simp [hc]
    simp [claim_cache, hvc, hfind]
  · intro spots s hnodup hmem hinact
    rw [clue_view]
    have hfind : spots.find? (fun t => t.id == s.id && t.isActive) = none := by
      rw [List.find?_eq_none]
      intro t ht
      by_cases hc : t.id = s.id
      · have : t = s := List.inj_on_of_nodup_map hnodup ht hmem hc
        subst this
        simp [hinact]
      · simp [hc]
    rw [hfind]
  · intro spots pk hnone
    rw [clue_view]
    have hfind : spots.find? (fun t => t.id == pk && t.isActive) = none := by
      rw [List.find?_eq_none]
      intro t ht
      simp [hnone t ht]
    rw [hfind]

/-- Witness for C3: with the single inactive spot `"ABC123"` (id 1), its
own code and id draw exactly the responses of a nonexistent code and a
nonexistent id. -/
theorem anti_enumeration_witness :
    claim_cache [⟨1, "Hidden", "ABC123", false⟩] [] 7 false (some "ABC123") = .codeNotFound
    ∧ clue_view [⟨1, "Hidden", "ABC123", false⟩] 1 = .notFound
    ∧ clue_view [⟨1, "Hidden", "ABC123", false⟩] 2 = .notFound :=
  ⟨anti_enumeration.1 [⟨1, "Hidden", "ABC123", false⟩] [] 7 "ABC123" "ABC123" rfl
     (by decide),
   anti_enumeration.2.1 [⟨1, "Hidden", "ABC123", false⟩] ⟨1, "Hidden", "ABC123", false⟩
     (by decide) (by decide) (by decide),
   anti_enumeration.2.2 [⟨1, "Hidden", "ABC123", false⟩] 2 (by decide)⟩

/-- C4 (failing the spec's cap): `spot_updates_view` applies no size cap
at all. On the test suite's own scenario — one active spot, 150 finds at
times 0..149, a watermark older than all of them (`since = -1`, standing
for now−10days) — the view returns all 150 matching finds, where the
claim (and `test_polling_old_timestamp_capped_at_100` in
`core/tests/test_finds.py`) demands exactly the oldest 100. -/
theorem polling_uncapped_at_deep_query :
    (spot_updates [⟨1, "Popular Spot", "ABC123", true⟩]
      ((List.range 150).map (fun i => ⟨1, i, (i : Int)⟩)) (-1)).length = 150 := by
  rw [spot_updates, List.length_mergeSort]
  rw [List.filter_eq_self.mpr ?_]
  · simp
  · intro f hf
    simp only [List.mem_map, List.mem_range] at hf
    obtain ⟨i, hi, rfl⟩ := hf
    have h1 : ((-1 : Int) < (i : Int)) := by omega
    have h2 : spotIsActive [⟨1, "Popular Spot", "ABC123", true⟩] 1 = true := rfl
    simp [h1, h2]

/- ============================================================
   Code generator, from `core/models.py` lines 89-102
   (`Spot._generate_unique_code`). The RNG is exposed as the draw
   oracle `draws`: draw `i` is the six alphabet indices that
   `random.choices(string.ascii_uppercase + string.digits, k=6)`
   produced on loop iteration `i`. The DB lookup
   `Spot.objects.filter(unique_code=code).exists()` is the
   collaborator `ex`.
   ============================================================ -/

/-- The 36-symbol alphabet `string.ascii_uppercase + string.digits`. -/
def codeAlphabet : List Char :=
  "ABCDEFGHIJKLMNOPQRSTUVWXYZ0123456789".data

lemma codeAlphabet_length : codeAlphabet.length = 36 := rfl

/-- The code built from one draw of six alphabet indices. -/
def codeOfDraw (d : Fin 6 → Fin 36) : String :=
  String.mk ((List.finRange 6).map
    (fun i => codeAlphabet.get ⟨(d i).val, by rw [codeAlphabet_length]; exact (d i).isLt⟩))

/-- The `ValueError("Could not generate unique code after maximum
attempts")` raised when the attempt budget is exhausted. -/
inductive GenErr
  | exhausted
deriving DecidableEq, Repr

/-- The `for _ in range(max_attempts)` loop: on each remaining attempt,
generate the next candidate and return it unless the existence check
reports a collision. -/
def genAttempts (ex : String → Bool) (draws : Nat → Fin 6 → Fin 36) :
    Nat → Nat → Except GenErr String
  | _, 0 => .error .exhausted
  | attempt, n + 1 =>
    let code := codeOfDraw (draws attempt)
    if ex code then genAttempts ex draws (attempt + 1) n
    else .ok code

/-- From `core/models.py` lines 89-102: `max_attempts = 100`. -/
def generate_unique_code (ex : String → Bool) (draws : Nat → Fin 6 → Fin 36) :
    Except GenErr String :=
  genAttempts ex draws 0 100

lemma codeOfDraw_length (d : Fin 6 → Fin 36) : (codeOfDraw d).length = 6 := rfl

lemma codeOfDraw_mem_alphabet (d : Fin 6 → Fin 36) :
    ∀ c ∈ (codeOfDraw d).data, c ∈ codeAlphabet := by
  intro c hc
  simp only [codeOfDraw, List.mem_map] at hc
  obtain ⟨i, _, rfl⟩ := hc
  exact List.get_mem _ _ _

lemma genAttempts_ok (ex : String → Bool) (draws : Nat → Fin 6 → Fin 36) :
    ∀ (n attempt : Nat) (c : String), genAttempts ex draws attempt n = .ok c →
      ex c = false ∧ ∃ i, attempt ≤ i ∧ i < attempt + n ∧ c = codeOfDraw (draws i) := by
  intro n
  induction n with
  | zero => intro attempt c h; exact absurd h (by simp [genAttempts])
  | succ m ih =>
    intro attempt c h
    rw [genAttempts] at h
    by_cases hex : ex (codeOfDraw (draws attempt)) = true
    · rw [if_pos hex] at h
      obtain ⟨hfalse, i, hle, hlt, hic⟩ := ih (attempt + 1) c h
      exact ⟨hfalse, i, by omega, by omega, hic⟩
    · rw [if_neg hex] at h
      have hc : c = codeOfDraw (draws attempt) := by cases h; rfl
      subst hc
      exact ⟨by simpa using hex, attempt, le_refl _, by omega, rfl⟩

lemma genAttempts_error_iff (ex : String → Bool) (draws : Nat → Fin 6 → Fin 36) :
    ∀ (n attempt : Nat), genAttempts ex draws attempt n = .error .exhausted ↔
      ∀ i, attempt ≤ i → i < attempt + n → ex (codeOfDraw (draws i)) = true := by
  intro n
  induction n with
  | zero =>
    intro attempt
    constructor
    · intro _ i h1 h2; omega
    · intro _; rfl
  | succ m ih =>
    intro attempt
    rw [genAttempts]
    by_cases hex : ex (codeOfDraw (draws attempt)) = true
    · rw [if_pos hex, ih (attempt + 1)]
      constructor
      · intro h i h1 h2
        rcases Nat.eq_or_lt_of_le h1 with heq | hlt
        · rw [← heq]; exact hex
        · exact h i hlt (by omega)
      · intro h i h1 h2
        exact h i (by omega) (by omega)
    · rw [if_neg hex]
      constructor
      · intro h; exact absurd h (by simp)
      · intro h
        exact absurd (h attempt (le_refl _) (by omega)) hex

/-- C9: for any draw oracle and existence check, a generated code is
6 characters over `A-Z0-9` and is reported unused by the collaborator;
the loop is bounded at 100 attempts and yields the distinct exhaustion
error exactly when all 100 candidate draws collide — never a duplicate
code, never an unbounded loop. -/
theorem generate_unique_code_spec (ex : String → Bool) (draws : Nat → Fin 6 → Fin 36) :
    (∀ c : String, generate_unique_code ex draws = .ok c →
      ex c = false ∧ c.length = 6 ∧ (∀ ch ∈ c.data, ch ∈ codeAlphabet)
      ∧ ∃ i, i < 100 ∧ c = codeOfDraw (draws i))
    ∧ (generate_unique_code ex draws = .error .exhausted ↔
        ∀ i, i < 100 → ex (codeOfDraw (draws i)) = true) := by
  constructor
  · intro c h
    obtain ⟨hfalse, i, _, hlt, hic⟩ := genAttempts_ok ex draws 100 0 c h
    refine ⟨hfalse, ?_, ?_, i, by omega, hic⟩
    · rw [hic]; exact codeOfDraw_length _
    · rw [hic]; exact codeOfDraw_mem_alphabet _
  · rw [generate_unique_code, genAttempts_error_iff ex draws 100 0]
    constructor
    · intro h i hi; exact h i (by omega) (by omega)
    · intro h i _ hi; exact h i (by omega)

/-- Witness for C9: with an always-colliding collaborator the generator
reports exhaustion; with a never-colliding one the constant-0 draw yields
`"AAAAAA"`, which is 6 characters long. -/
theorem generate_unique_code_spec_witness :
    generate_unique_code (fun _ => true) (fun _ _ => 0) = .error .exhausted
    ∧ "AAAAAA".length = 6 :=
  ⟨(generate_unique_code_spec (fun _ => true) (fun _ _ => 0)).2.mpr (fun _ _ => rfl),
   ((generate_unique_code_spec (fun _ => false) (fun _ _ => 0)).1 "AAAAAA" rfl).2.1⟩

/- ============================================================
   Coordinate fuzzer, from `core/utils.py::get_fuzzy_coordinates`
   (lines 9-52). Python float arithmetic is modeled over ℝ; the two
   `random.random()` draws become the parameters `u` (distance draw)
   and the angle `angle` (with `angle = random() * 2π` ranging over
   `[0, 2π)`). The latitude `±90` poles, where the float code divides
   by `cos(±π/2) ≈ 6.1e-17` instead of an exact zero, are outside
   the exact model's offset identity.
   ============================================================ -/

/-- Python's float `%` for a positive modulus `y`:
`x % y = x - y * floor(x / y)`, landing in `[0, y)`. -/
noncomputable def pyFloatMod (x y : ℝ) : ℝ := x - y * ⌊x / y⌋

/-- Line 49: `max(-90, min(90, fuzzy_lat))`. -/
noncomputable def clampLat (x : ℝ) : ℝ := max (-90) (min 90 x)

/-- Line 50: `((fuzzy_lng + 180) % 360) - 180`. -/
noncomputable def wrapLng (x : ℝ) : ℝ := pyFloatMod (x + 180) 360 - 180

/-- Line 35: `earth_radius = 6371000`. -/
def earthRadius : ℝ := 6371000

/-- Line 29: `distance = radius_meters * math.sqrt(random.random())`. -/
noncomputable def fuzzDistance (radius u : ℝ) : ℝ := radius * Real.sqrt u

/-- Line 39: `lat_offset = (distance * cos(angle)) / earth_radius * (180/pi)`. -/
noncomputable def latOffset (radius u angle : ℝ) : ℝ :=
  fuzzDistance radius u * Real.cos angle / earthRadius * (180 / Real.pi)

/-- Line 42: `lng_offset = (distance * sin(angle)) /
(earth_radius * cos(exact_lat * pi / 180)) * (180/pi)`. -/
noncomputable def lngOffset (exactLat radius u angle : ℝ) : ℝ :=
  fuzzDistance radius u * Real.sin angle
    / (earthRadius * Real.cos (exactLat * Real.pi / 180)) * (180 / Real.pi)

/-- The body of `get_fuzzy_coordinates`: offset, then clamp latitude and wrap
longitude (lines 44-52). Returns `(fuzzy_lat, fuzzy_lng)`. -/
noncomputable def get_fuzzy_coordinates (exactLat exactLng radius u angle : ℝ) : ℝ × ℝ :=
  (clampLat (exactLat + latOffset radius u angle),
   wrapLng (exactLng + lngOffset exactLat radius u angle))

lemma pyFloatMod_360 (x : ℝ) : pyFloatMod x 360 = 360 * Int.fract (x / 360) := by
  rw [pyFloatMod, Int.fract, mul_sub, mul_div_cancel₀ x (by norm_num : (360 : ℝ) ≠ 0)]

lemma wrapLng_bounds (x : ℝ) : -180 ≤ wrapLng x ∧ wrapLng x < 180 := by
  rw [wrapLng, pyFloatMod_360]
  have h1 := Int.fract_nonneg ((x + 180) / 360)
  have h2 := Int.fract_lt_one ((x + 180) / 360)
  constructor <;> nlinarith

lemma clampLat_bounds (x : ℝ) : -90 ≤ clampLat x ∧ clampLat x ≤ 90 := by
  rw [clampLat]
  exact ⟨le_max_left _ _, max_le (by norm_num) (min_le_left _ _)⟩

lemma clampLat_eq_self {x : ℝ} (h1 : -90 ≤ x) (h2 : x ≤ 90) : clampLat x = x := by
  rw [clampLat, min_eq_right h2, max_eq_right h1]

lemma wrapLng_eq_self {x : ℝ} (h1 : -180 ≤ x) (h2 : x < 180) : wrapLng x = x := by
  rw [wrapLng, pyFloatMod]
  have hfl : ⌊(x + 180) / 360⌋ = 0 := by
    rw [Int.floor_eq_zero_iff, Set.mem_Ico]
    constructor
    · apply div_nonneg (by linarith) (by norm_num)
    · rw [div_lt_one (by norm_num)]
      linarith
  rw [hfl]
  push_cast
  ring

/-- Great-circle distance, in meters, on the sphere of radius
`earthRadius`, between two points given in degrees, by the spherical law
of cosines. This is the distance the spec's postcondition speaks about. -/
noncomputable def greatCircleDistance (lat1 lng1 lat2 lng2 : ℝ) : ℝ :=
  earthRadius * Real.arccos
    (Real.sin (lat1 * Real.pi / 180) * Real.sin (lat2 * Real.pi / 180)
      + Real.cos (lat1 * Real.pi / 180) * Real.cos (lat2 * Real.pi / 180)
        * Real.cos ((lng2 - lng1) * Real.pi / 180))

/-- The near-pole exact latitude of the distance counterexample: its
radian colatitude is `arcsin(45√2/(6371000π))`, chosen so that with
radius 100, `u = 81/100` and bearing `3π/4` the fuzzer's longitude
offset is exactly 180 degrees. About `89.99982` degrees. -/
noncomputable def poleLatitude : ℝ :=
  90 - (180 / Real.pi) * Real.arcsin (45 * Real.sqrt 2 / (6371000 * Real.pi))

/-- For two points whose longitudes differ by 180 degrees the spherical
law of cosines degenerates: the central angle is exactly the sum of the
two radian colatitudes (the shortest path runs across the pole). -/
lemma greatCircle_through_pole (a c : ℝ) (ha : 0 ≤ a) (hc : 0 ≤ c)
    (hsum : a + c ≤ Real.pi) :
    greatCircleDistance (90 - (180 / Real.pi) * a) 0 (90 - (180 / Real.pi) * c) (-180)
      = earthRadius * (a + c) := by
  have hπ : Real.pi ≠ 0 := Real.pi_ne_zero
  rw [greatCircleDistance]
  have h1 : (90 - (180 / Real.pi) * a) * Real.pi / 180 = Real.pi / 2 - a := by
    field_simp
    ring
  have h2 : (90 - (180 / Real.pi) * c) * Real.pi / 180 = Real.pi / 2 - c := by
    field_simp
    ring
  have h3 : ((-180 : ℝ) - 0) * Real.pi / 180 = -Real.pi := by
    ring
  rw [h1, h2, h3, Real.cos_neg, Real.cos_pi, Real.sin_pi_div_two_sub,
    Real.sin_pi_div_two_sub, Real.cos_pi_div_two_sub, Real.cos_pi_div_two_sub]
  rw [show Real.cos a * Real.cos c + Real.sin a * Real.sin c * -1
      = Real.cos (a + c) from by rw [Real.cos_add]; ring]
  rw [Real.arccos_cos (by linarith) hsum]

set_option maxHeartbeats 1600000 in
/-- C5 counterexample, refuting two conjuncts of the claim at valid
inputs. Wrap interval: at `lat = 0`, `lng = -180`, `radius = 5` with
draws `u = 0`, `angle = 0`, the returned longitude is exactly `-180`,
outside the claimed `(-180, 180]` — the wrap `((lng + 180) % 360) - 180`
lands in `[-180, 180)`. Great-circle bound: at the valid near-pole
latitude `poleLatitude` with `radius = 100`, draw `u = 81/100` (planar
distance 90 m) and bearing `3π/4`, the longitude offset is exactly 180
degrees, so the returned point lies across the pole from the exact
location at great-circle distance `earthRadius·(2·arcsin x + 45√2/R)`
`≥ 90√2/π + 45√2 > 104` meters — exceeding the 100 m radius by over 4 m,
far beyond floating tolerance (float evaluation of the source reproduces
this input to within nanometers). -/
theorem fuzz_postcondition_counterexample :
    ((get_fuzzy_coordinates 0 (-180) 5 0 0).2 = -180
      ∧ ¬ (-180 < (get_fuzzy_coordinates 0 (-180) 5 0 0).2))
    ∧ (-90 ≤ poleLatitude ∧ poleLatitude ≤ 90
      ∧ (0 : ℝ) ≤ 81 / 100 ∧ (81 / 100 : ℝ) < 1
      ∧ (0 : ℝ) ≤ 3 * Real.pi / 4 ∧ 3 * Real.pi / 4 < 2 * Real.pi
      ∧ 100 < greatCircleDistance poleLatitude 0
          (get_fuzzy_coordinates poleLatitude 0 100 (81 / 100) (3 * Real.pi / 4)).1
          (get_fuzzy_coordinates poleLatitude 0 100 (81 / 100) (3 * Real.pi / 4)).2) := by
  constructor
  · have hoff : lngOffset 0 5 0 0 = 0 := by
      rw [lngOffset, fuzzDistance]
      simp [Real.sin_zero]
    have hwrap : wrapLng (-180) = -180 := by
      rw [wrapLng, pyFloatMod]
      norm_num
    have h2 : (get_fuzzy_coordinates 0 (-180) 5 0 0).2 = -180 := by
      rw [get_fuzzy_coordinates]
      show wrapLng (-180 + lngOffset 0 5 0 0) = -180
      rw [hoff, add_zero, hwrap]
    exact ⟨h2, by rw [h2]; norm_num⟩
  · have hπpos : 0 < Real.pi := Real.pi_pos
    have hπne : Real.pi ≠ 0 := Real.pi_ne_zero
    have hπl : 3.14 < Real.pi := Real.pi_gt_d2
    have hπu : Real.pi < 3.15 := Real.pi_lt_d2
    have hs2l : (1.414 : ℝ) < Real.sqrt 2 := (Real.lt_sqrt (by norm_num)).mpr (by norm_num)
    have hs2u : Real.sqrt 2 < 1.415 := (Real.sqrt_lt' (by norm_num)).mpr (by norm_num)
    have hs2pos : (0 : ℝ) < Real.sqrt 2 := by linarith
    have hsqrt81 : Real.sqrt (81 / 100) = 9 / 10 := by
      rw [show (81 / 100 : ℝ) = (9 / 10) ^ 2 by norm_num,
        Real.sqrt_sq (by norm_num : (0 : ℝ) ≤ 9 / 10)]
    have hd : fuzzDistance 100 (81 / 100) = 90 := by
      rw [fuzzDistance, hsqrt81]; norm_num
    have hx_pos : (0 : ℝ) < 45 * Real.sqrt 2 / (6371000 * Real.pi) := by positivity
    have hx_lt : 45 * Real.sqrt 2 / (6371000 * Real.pi) < 1 / 100000 := by
      rw [div_lt_div_iff₀ (by positivity) (by norm_num)]
      nlinarith
    have hx1 : 45 * Real.sqrt 2 / (6371000 * Real.pi) ≤ 1 := by linarith
    have hxm1 : (-1 : ℝ) ≤ 45 * Real.sqrt 2 / (6371000 * Real.pi) := by linarith
    have ha_pos : 0 < Real.arcsin (45 * Real.sqrt 2 / (6371000 * Real.pi)) :=
      Real.arcsin_pos.mpr hx_pos
    have hsin_a : Real.sin (Real.arcsin (45 * Real.sqrt 2 / (6371000 * Real.pi)))
        = 45 * Real.sqrt 2 / (6371000 * Real.pi) := Real.sin_arcsin hxm1 hx1
    have hx_lt_a : 45 * Real.sqrt 2 / (6371000 * Real.pi)
        < Real.arcsin (45 * Real.sqrt 2 / (6371000 * Real.pi)) := by
      have h := Real.sin_lt ha_pos
      rw [hsin_a] at h
      exact h
    have ha_le : Real.arcsin (45 * Real.sqrt 2 / (6371000 * Real.pi))
        ≤ 2 * (45 * Real.sqrt 2 / (6371000 * Real.pi)) := by
      rw [Real.arcsin_le_iff_le_sin (Set.mem_Icc.mpr ⟨hxm1, hx1⟩)
        (Set.mem_Icc.mpr ⟨by linarith [hπpos, hx_pos], by linarith [hx_lt, hπl]⟩)]
      have h1 := Real.sin_gt_sub_cube
        (by linarith : (0 : ℝ) < 2 * (45 * Real.sqrt 2 / (6371000 * Real.pi)))
        (by linarith [hx_lt] : 2 * (45 * Real.sqrt 2 / (6371000 * Real.pi)) ≤ 1)
      have hxx : (45 * Real.sqrt 2 / (6371000 * Real.pi))
          * (45 * Real.sqrt 2 / (6371000 * Real.pi)) < 1 / 100000 * (1 / 100000) :=
        mul_lt_mul'' hx_lt hx_lt hx_pos.le hx_pos.le
      nlinarith [h1, hx_pos, hxx, mul_pos hx_pos (sub_pos.mpr hxx)]
    have hb_pos : (0 : ℝ) < 45 * Real.sqrt 2 / 6371000 := by positivity
    have hb_lt : 45 * Real.sqrt 2 / 6371000 < 1 / 100000 := by
      rw [div_lt_div_iff₀ (by norm_num) (by norm_num)]
      nlinarith
    have hlat_le : poleLatitude ≤ 90 := by
      rw [poleLatitude]
      have h0 : 0 ≤ (180 / Real.pi)
          * Real.arcsin (45 * Real.sqrt 2 / (6371000 * Real.pi)) :=
        mul_nonneg (by positivity) ha_pos.le
      linarith
    have hshift_le : (180 / Real.pi)
        * (Real.arcsin (45 * Real.sqrt 2 / (6371000 * Real.pi))
            + 45 * Real.sqrt 2 / 6371000) ≤ 180 := by
      rw [div_mul_eq_mul_div, div_le_iff₀ hπpos]
      linarith [ha_le, hx_lt, hb_lt, hπl]
    have hlat_ge : -90 ≤ poleLatitude := by
      rw [poleLatitude]
      have h1 : (180 / Real.pi)
          * Real.arcsin (45 * Real.sqrt 2 / (6371000 * Real.pi)) ≤ 180 := by
        rw [div_mul_eq_mul_div, div_le_iff₀ hπpos]
        linarith [ha_le, hx_lt, hπl]
      linarith
    refine ⟨hlat_ge, hlat_le, by norm_num, by norm_num, by positivity,
      by linarith, ?_⟩
    have hcos34 : Real.cos (3 * Real.pi / 4) = -(Real.sqrt 2 / 2) := by
      rw [show (3 : ℝ) * Real.pi / 4 = Real.pi - Real.pi / 4 by ring, Real.cos_pi_sub,
        Real.cos_pi_div_four]
    have hsin34 : Real.sin (3 * Real.pi / 4) = Real.sqrt 2 / 2 := by
      rw [show (3 : ℝ) * Real.pi / 4 = Real.pi - Real.pi / 4 by ring, Real.sin_pi_sub,
        Real.sin_pi_div_four]
    have hlat_rad : poleLatitude * Real.pi / 180
        = Real.pi / 2 - Real.arcsin (45 * Real.sqrt 2 / (6371000 * Real.pi)) := by
      rw [poleLatitude]
      field_simp
      ring
    have hcoslat : Real.cos (poleLatitude * Real.pi / 180)
        = 45 * Real.sqrt 2 / (6371000 * Real.pi) := by
      rw [hlat_rad, Real.cos_pi_div_two_sub, hsin_a]
    have hlatoff : latOffset 100 (81 / 100) (3 * Real.pi / 4)
        = -((180 / Real.pi) * (45 * Real.sqrt 2 / 6371000)) := by
      rw [latOffset, hd, hcos34, earthRadius]
      field_simp
      ring
    have hlngoff : lngOffset poleLatitude 100 (81 / 100) (3 * Real.pi / 4) = 180 := by
      rw [lngOffset, hd, hsin34, hcoslat, earthRadius]
      field_simp
      ring
    have hout1 : (get_fuzzy_coordinates poleLatitude 0 100 (81 / 100) (3 * Real.pi / 4)).1
        = 90 - (180 / Real.pi) * (Real.arcsin (45 * Real.sqrt 2 / (6371000 * Real.pi))
            + 45 * Real.sqrt 2 / 6371000) := by
      rw [get_fuzzy_coordinates]
      show clampLat (poleLatitude + latOffset 100 (81 / 100) (3 * Real.pi / 4)) = _
      rw [hlatoff, show poleLatitude + -((180 / Real.pi) * (45 * Real.sqrt 2 / 6371000))
          = 90 - (180 / Real.pi) * (Real.arcsin (45 * Real.sqrt 2 / (6371000 * Real.pi))
              + 45 * Real.sqrt 2 / 6371000) from by rw [poleLatitude]; ring]
      have hnn : 0 ≤ (180 / Real.pi)
          * (Real.arcsin (45 * Real.sqrt 2 / (6371000 * Real.pi))
              + 45 * Real.sqrt 2 / 6371000) :=
        mul_nonneg (by positivity) (by linarith [ha_pos, hb_pos])
      exact clampLat_eq_self (by linarith [hshift_le]) (by linarith [hnn])
    have hout2 : (get_fuzzy_coordinates poleLatitude 0 100 (81 / 100) (3 * Real.pi / 4)).2
        = -180 := by
      rw [get_fuzzy_coordinates]
      show wrapLng (0 + lngOffset poleLatitude 100 (81 / 100) (3 * Real.pi / 4)) = _
      rw [hlngoff, zero_add, wrapLng, pyFloatMod,
        show (180 : ℝ) + 180 = 360 by norm_num, show (360 : ℝ) / 360 = 1 by norm_num,
        Int.floor_one]
      push_cast
      ring
    rw [hout1, hout2,
      show poleLatitude = 90 - (180 / Real.pi)
        * Real.arcsin (45 * Real.sqrt 2 / (6371000 * Real.pi)) from rfl,
      greatCircle_through_pole _ _ ha_pos.le (by linarith [ha_pos, hb_pos])
        (by linarith [ha_le, hx_lt, hb_lt, hπl])]
    have hexp : 6371000 * (2 * (45 * Real.sqrt 2 / (6371000 * Real.pi))
        + 45 * Real.sqrt 2 / 6371000) * Real.pi
        = 90 * Real.sqrt 2 + 45 * Real.sqrt 2 * Real.pi := by
      field_simp
      ring
    have hkey : (100 : ℝ) * Real.pi < 6371000 * (2 * (45 * Real.sqrt 2 / (6371000 * Real.pi))
        + 45 * Real.sqrt 2 / 6371000) * Real.pi := by
      rw [hexp]
      nlinarith [mul_pos (show (0 : ℝ) < Real.sqrt 2 - 1.414 by linarith)
        (show (0 : ℝ) < Real.pi - 3.14 by linarith)]
    have h2a : (100 : ℝ) < 6371000 * (2 * (45 * Real.sqrt 2 / (6371000 * Real.pi))
        + 45 * Real.sqrt 2 / 6371000) := (mul_lt_mul_right hπpos).mp hkey
    rw [earthRadius]
    linarith [h2a, hx_lt_a]

/-- C5 (amended, both changes forced by the two-part counterexample):
for every exact location with `lat ∈ [-90, 90]`, radius in `[5, 100]`,
`u ∈ [0, 1)` and `angle ∈ [0, 2π)` — the angle being unconstrained in
the proof — the fuzzer clamps the returned latitude into `[-90, 90]`,
wraps the returned longitude by modulo arithmetic into the half-open
interval `[-180, 180)` (not `(-180, 180]`: the wrap attains `-180`), and
displaces by the planar length `d = radius·√u ≤ radius` in the
equirectangular metric at the exact latitude (latitude delta, and
cos-latitude-scaled longitude delta), the metric identity holding away
from the poles where `cos` vanishes. The claim's great-circle form of
the radius bound is false: near the poles the returned point's
great-circle distance from the exact location exceeds the radius, as the
counterexample exhibits. -/
theorem fuzzy_coordinates_range_spec :
    ∀ lat lng radius u angle : ℝ,
      -90 ≤ lat → lat ≤ 90 → 0 ≤ u → u < 1 → 5 ≤ radius → radius ≤ 100 →
      (-90 ≤ (get_fuzzy_coordinates lat lng radius u angle).1
        ∧ (get_fuzzy_coordinates lat lng radius u angle).1 ≤ 90)
      ∧ (-180 ≤ (get_fuzzy_coordinates lat lng radius u angle).2
        ∧ (get_fuzzy_coordinates lat lng radius u angle).2 < 180)
      ∧ (0 ≤ fuzzDistance radius u ∧ fuzzDistance radius u ≤ radius)
      ∧ (Real.cos (lat * Real.pi / 180) ≠ 0 →
          (latOffset radius u angle * (Real.pi / 180) * earthRadius) ^ 2
            + (Real.cos (lat * Real.pi / 180) * lngOffset lat radius u angle
                * (Real.pi / 180) * earthRadius) ^ 2
            = fuzzDistance radius u ^ 2) := by
  intro lat lng radius u angle hlat1 hlat2 hu0 hu1 hr1 hr2
  have hrpos : (0 : ℝ) ≤ radius := by linarith
  refine ⟨?_, ?_, ⟨?_, ?_⟩, ?_⟩
  · exact clampLat_bounds _
  · exact wrapLng_bounds _
  · exact mul_nonneg hrpos (Real.sqrt_nonneg u)
  · have hle : Real.sqrt u ≤ 1 := Real.sqrt_le_one.mpr (by linarith)
    calc radius * Real.sqrt u ≤ radius * 1 := by
          exact mul_le_mul_of_nonneg_left hle hrpos
      _ = radius := mul_one radius
  · intro hcos
    have hπ : Real.pi ≠ 0 := Real.pi_ne_zero
    have hR : earthRadius ≠ 0 := by rw [earthRadius]; norm_num
    have h1 : latOffset radius u angle * (Real.pi / 180) * earthRadius
        = fuzzDistance radius u * Real.cos angle := by
      rw [latOffset]
      field_simp
      ring
    have h2 : Real.cos (lat * Real.pi / 180) * lngOffset lat radius u angle
        * (Real.pi / 180) * earthRadius = fuzzDistance radius u * Real.sin angle := by
      rw [lngOffset]
      field_simp
      ring
    rw [h1, h2]
    calc (fuzzDistance radius u * Real.cos angle) ^ 2
          + (fuzzDistance radius u * Real.sin angle) ^ 2
        = fuzzDistance radius u ^ 2
            * (Real.sin angle ^ 2 + Real.cos angle ^ 2) := by ring
      _ = fuzzDistance radius u ^ 2 := by rw [Real.sin_sq_add_cos_sq, mul_one]

/-- Witness for C5 at the equatorial input `(0, 0)`, radius 5, draws
`u = 0`, `angle = 0` (where `cos(0·π/180) = 1 ≠ 0`). -/
theorem fuzzy_coordinates_range_spec_witness :
    ((-90 ≤ (get_fuzzy_coordinates 0 0 5 0 0).1
        ∧ (get_fuzzy_coordinates 0 0 5 0 0).1 ≤ 90)
      ∧ (-180 ≤ (get_fuzzy_coordinates 0 0 5 0 0).2
        ∧ (get_fuzzy_coordinates 0 0 5 0 0).2 < 180)
      ∧ (0 ≤ fuzzDistance 5 0 ∧ fuzzDistance 5 0 ≤ 5))
    ∧ (latOffset 5 0 0 * (Real.pi / 180) * earthRadius) ^ 2
        + (Real.cos (0 * Real.pi / 180) * lngOffset 0 5 0 0
            * (Real.pi / 180) * earthRadius) ^ 2
        = fuzzDistance 5 0 ^ 2 :=
  have h := fuzzy_coordinates_range_spec 0 0 5 0 0 (by norm_num) (by norm_num)
    (by norm_num) (by norm_num) (by norm_num) (by norm_num)
  ⟨⟨h.1, h.2.1, h.2.2.1⟩,
   h.2.2.2 (by rw [zero_mul, zero_div, Real.cos_zero]; norm_num)⟩

/-- From `SpotPublicListSerializer.get_fuzzy_lat` / `get_fuzzy_lng`
(`core/serializers.py` lines 415-423) and the identical pair in
`SpotClueSerializer` (lines 446-454): each field method makes its own
`get_fuzzy_coordinates` call, so the served pair combines the latitude of
one sample with the longitude of an independent second sample. -/
noncomputable def serializerFuzzyPair (lat lng radius u1 a1 u2 a2 : ℝ) : ℝ × ℝ :=
  ((get_fuzzy_coordinates lat lng radius u1 a1).1,
   (get_fuzzy_coordinates lat lng radius u2 a2).2)

/-- C6: because `fuzzy_lat` and `fuzzy_lng` come from two independent
fuzzer invocations, the served pair is not one sample from the
obfuscation disk: at the equatorial spot `(0, 0)` with
`fuzzy_radius_meters = 100` there are in-range draws (here
`u = 81/100` with angles `π` and `π/2`) under which the pair's
equirectangular distance from the exact location exceeds the radius. -/
theorem independent_fuzzy_draws_exceed_radius :
    ∃ u1 a1 u2 a2 : ℝ,
      (0 ≤ u1 ∧ u1 < 1) ∧ (0 ≤ a1 ∧ a1 < 2 * Real.pi)
      ∧ (0 ≤ u2 ∧ u2 < 1) ∧ (0 ≤ a2 ∧ a2 < 2 * Real.pi)
      ∧ ((serializerFuzzyPair 0 0 100 u1 a1 u2 a2).1 * (Real.pi / 180) * earthRadius) ^ 2
        + ((serializerFuzzyPair 0 0 100 u1 a1 u2 a2).2 * (Real.pi / 180) * earthRadius) ^ 2
        > 100 ^ 2 := by
  have hπpos := Real.pi_pos
  have hπ3 : (3 : ℝ) < Real.pi := Real.pi_gt_three
  have hπ : Real.pi ≠ 0 := Real.pi_ne_zero
  have hsqrt : Real.sqrt (81 / 100) = 9 / 10 := by
    rw [show (81 / 100 : ℝ) = (9 / 10) ^ 2 by norm_num,
      Real.sqrt_sq (by norm_num : (0 : ℝ) ≤ 9 / 10)]
  have hval0 : (0 : ℝ) < 16200 / (6371000 * Real.pi) := by positivity
  have hval1 : 16200 / (6371000 * Real.pi) < 1 := by
    rw [div_lt_one (by positivity)]
    nlinarith
  refine ⟨81 / 100, Real.pi, 81 / 100, Real.pi / 2,
    ⟨by norm_num, by norm_num⟩, ⟨le_of_lt hπpos, by linarith⟩,
    ⟨by norm_num, by norm_num⟩, ⟨by positivity, by linarith⟩, ?_⟩
  have hlatoff : latOffset 100 (81 / 100) Real.pi = -(16200 / (6371000 * Real.pi)) := by
    rw [latOffset, fuzzDistance, hsqrt, Real.cos_pi, earthRadius]
    field_simp
    ring
  have hlngoff : lngOffset 0 100 (81 / 100) (Real.pi / 2)
      = 16200 / (6371000 * Real.pi) := by
    rw [lngOffset, fuzzDistance, hsqrt, Real.sin_pi_div_two, earthRadius]
    rw [show (0 : ℝ) * Real.pi / 180 = 0 by ring, Real.cos_zero]
    field_simp
    ring
  have hp1 : (serializerFuzzyPair 0 0 100 (81 / 100) Real.pi (81 / 100) (Real.pi / 2)).1
      = -(16200 / (6371000 * Real.pi)) := by
    rw [serializerFuzzyPair, get_fuzzy_coordinates]
    show clampLat (0 + latOffset 100 (81 / 100) Real.pi) = _
    rw [hlatoff, zero_add]
    exact clampLat_eq_self (by linarith) (by linarith)
  have hp2 : (serializerFuzzyPair 0 0 100 (81 / 100) Real.pi (81 / 100) (Real.pi / 2)).2
      = 16200 / (6371000 * Real.pi) := by
    rw [serializerFuzzyPair, get_fuzzy_coordinates]
    show wrapLng (0 + lngOffset 0 100 (81 / 100) (Real.pi / 2)) = _
    rw [hlngoff, zero_add]
    exact wrapLng_eq_self (by linarith) (by linarith)
  rw [hp1, hp2]
  have hcomp1 : -(16200 / (6371000 * Real.pi)) * (Real.pi / 180) * earthRadius
      = -90 := by
    rw [earthRadius]
    field_simp
    ring
  have hcomp2 : 16200 / (6371000 * Real.pi) * (Real.pi / 180) * earthRadius = 90 := by
    rw [earthRadius]
    field_simp
    ring
  rw [hcomp1, hcomp2]
  norm_num

end CacheQuest
